import Mathlib

/-!
Verification of the tv-room repository: a shallow embedding of the
procedural wall-layout engine (`ExhibitionScene.addVintageTVWall`) and the
first-person navigation controller (`FPSCameraControls`), with theorems
checking the natural-language specification against the code.

The wall-layout engine is pure rational arithmetic and is embedded over ℚ.
Each `Math.random()` draw is injected as an explicit oracle (a size-class
stream and a per-attempt, per-try stream of raw pairs in place of the
ambient random source), exactly as the spec's design notes prescribe for
testability; everything else follows the source line by line.
-/

/-! ### Wall-layout engine (src/exhibition/ExhibitionScene.ts, addVintageTVWall) -/

/-- Size classes of a TV exhibit (`sizes = ["small", "medium", "large"]`). -/
inductive SizeClass where
  | small
  | medium
  | large
deriving DecidableEq, Repr

/-- Width/height of a candidate footprint in local wall units. -/
structure SizeConfig where
  width : ℚ
  height : ℚ
deriving DecidableEq, Repr

/-- Source `sizeConfigs`: small 0.8×0.6, medium 1.0×0.8, large 1.2×0.9. -/
def sizeConfigs : SizeClass → SizeConfig
  | .small => ⟨0.8, 0.6⟩
  | .medium => ⟨1.0, 0.8⟩
  | .large => ⟨1.2, 0.9⟩

/-- An accepted placement, as pushed onto `placedTVs`:
anchor `(x, y)` plus the candidate's width and height. -/
structure PlacedTV where
  x : ℚ
  y : ℚ
  width : ℚ
  height : ℚ
deriving DecidableEq, Repr

/-- Source `roomSize = 15`. -/
def roomSize : ℚ := 15

/-- Source `wallHeight = 8`. -/
def wallHeight : ℚ := 8

/-- Source `maxTVsPerWall = 10`. -/
def maxTVsPerWall : ℕ := 10

/-- Source `maxAttempts = 100`. -/
def maxAttemptsPerWall : ℕ := 100

/-- Anchor sampling for one try, from two raw draws `u, v` (each standing
for one `Math.random()` result).  On side walls (`left`/`right`) the x
coordinate is drawn from the wall-height extent using the candidate's
height clearance and y from the room-width extent using its width
clearance; on front/back walls it is the other way around (source lines
93-99). -/
def sampleXY (isSide : Bool) (c : SizeConfig) (u v : ℚ) : ℚ × ℚ :=
  if isSide then
    (u * (wallHeight - c.height) + c.height / 2, (v - 1/2) * (roomSize - c.width))
  else
    ((u - 1/2) * (roomSize - c.width), v * (wallHeight - c.height) + c.height / 2)

/-- One pairwise overlap test of the candidate at `(x, y)` against an
existing placement (source lines 103-104): overlap on x when
`|x - p.x| < (width + p.width)/2`, overlap on y when
`|y - p.y| < (height + p.height)/2`; the pair overlaps when both hold. -/
def overlapsB (c : SizeConfig) (x y : ℚ) (p : PlacedTV) : Bool :=
  decide (|x - p.x| < (c.width + p.width) / 2) &&
    decide (|y - p.y| < (c.height + p.height) / 2)

/-- Source `canPlace`: the candidate anchor is acceptable when it overlaps
no already placed TV (the loop over `placedTVs` with early exit). -/
def canPlace (c : SizeConfig) (x y : ℚ) (placed : List PlacedTV) : Bool :=
  placed.all fun p => !(overlapsB c x y p)

/-- The inner `for (tries = 0; tries < 50; ...)` loop: walk the list of
raw draws for this attempt, sample an anchor from each, return the first
anchor that `canPlace` accepts, `none` when every try is rejected. -/
def findPosition (isSide : Bool) (c : SizeConfig) (placed : List PlacedTV) :
    List (ℚ × ℚ) → Option (ℚ × ℚ)
  | [] => none
  | uv :: rest =>
    let p := sampleXY isSide c uv.1 uv.2
    if canPlace c p.1 p.2 placed then some p else findPosition isSide c placed rest

/-- The 50 raw draw pairs the source consumes for attempt `i`
(`tries < 50`, two `Math.random()` calls per try). -/
def attemptDraws (rnd : ℕ → ℕ → ℚ × ℚ) (i : ℕ) : List (ℚ × ℚ) :=
  (List.range 50).map (rnd i)

/-- One body of the outer `while` loop after the attempt counter has been
bumped: run the 50-try search for the drawn candidate; on success push the
placement (`placedTVs.push`, `tvIndex++`), on failure (`continue`) keep
the list unchanged. -/
def attemptStep (isSide : Bool) (c : SizeConfig) (draws : List (ℚ × ℚ))
    (placed : List PlacedTV) : List PlacedTV :=
  match findPosition isSide c placed draws with
  | none => placed
  | some p => placed ++ [⟨p.1, p.2, c.width, c.height⟩]

/-- The outer `while (tvIndex < maxTVsPerWall && attempts < maxAttempts)`
loop for one wall.  `fuel` is the remaining attempt budget
(`maxAttempts - attempts`), `attempts` the counter so far, and the result
carries the final counter together with the placements; `σ` draws the
size class for each attempt and `rnd` the raw anchor draws.  `tvIndex`
always equals `placed.length` in the source, so the list length stands in
for it. -/
def layoutRun (isSide : Bool) (σ : ℕ → SizeClass) (rnd : ℕ → ℕ → ℚ × ℚ) :
    ℕ → ℕ → List PlacedTV → ℕ × List PlacedTV
  | 0, attempts, placed => (attempts, placed)
  | fuel + 1, attempts, placed =>
    if placed.length < maxTVsPerWall then
      layoutRun isSide σ rnd fuel (attempts + 1)
        (attemptStep isSide (sizeConfigs (σ attempts)) (attemptDraws rnd attempts) placed)
    else (attempts, placed)

/-- The four walls are processed in source order back, front, left, right;
indices 2 and 3 are the side walls. -/
def isSideWall (w : ℕ) : Bool := w == 2 || w == 3

/-- Placements recorded for wall `w` by a full run of its loop. -/
def wallPlacements (σ : ℕ → ℕ → SizeClass) (rnd : ℕ → ℕ → ℕ → ℚ × ℚ) (w : ℕ) :
    List PlacedTV :=
  (layoutRun (isSideWall w) (σ w) (rnd w) maxAttemptsPerWall 0 []).2

/-- The complete layout: the concatenation of the four walls' placements
(the source's `walls.forEach`). -/
def buildLayout (σ : ℕ → ℕ → SizeClass) (rnd : ℕ → ℕ → ℕ → ℚ × ℚ) : List PlacedTV :=
  ((List.range 4).map (wallPlacements σ rnd)).foldr (· ++ ·) []

/-- The separating-axis condition of spec §3 between two placements on the
same wall. -/
def sat (p q : PlacedTV) : Prop :=
  (p.width + q.width) / 2 ≤ |p.x - q.x| ∨ (p.height + q.height) / 2 ≤ |p.y - q.y|

/-- On a side wall the anchor's x is the vertical world coordinate and y
runs along the wall (source lines 129-133 add x to world Y and y to world
Z), so the physical wall rectangles of two placements overlap when they
are closer than the width clearance along the wall AND closer than the
height clearance vertically. -/
def physOverlapSide (p q : PlacedTV) : Bool :=
  decide (|p.y - q.y| < (p.width + q.width) / 2) &&
    decide (|p.x - q.x| < (p.height + q.height) / 2)

/-! ### Navigation controller (src/controls/FPSCameraControls.ts)

The controller works on floating-point scalars and trigonometric
functions; it is embedded over ℝ.  `THREE.Vector3` becomes `Vec3`, the
camera's YXZ-ordered Euler rotation becomes `rotY ∘ rotX`, and
`Vector3.normalize` (which divides by `length || 1`) leaves the zero
vector unchanged. -/

/-- A `THREE.Vector3`. -/
structure Vec3 where
  x : ℝ
  y : ℝ
  z : ℝ

/-- The bounds record of `FPSCameraControls` clamping the position. -/
structure Bounds where
  minX : ℝ
  maxX : ℝ
  minZ : ℝ
  maxZ : ℝ
  minY : ℝ
  maxY : ℝ

/-- The controller's mutable state: held keys (by key code), Euler
angles, camera position, velocity, the pointer-lock flag and the bounds. -/
structure CameraState where
  keys : String → Bool
  pitch : ℝ
  yaw : ℝ
  position : Vec3
  velocity : Vec3
  isPointerLocked : Bool
  bounds : Bounds

noncomputable section

/-- Source `moveSpeed = 0.01`. -/
def moveSpeed : ℝ := 0.01

/-- Source `lookSpeed = 0.0002`. -/
def lookSpeed : ℝ := 0.0002

/-- Source `friction = 0.95`. -/
def friction : ℝ := 0.95

/-- Source `maxVelocity = 0.08`. -/
def maxVelocity : ℝ := 0.08

/-- Source `sensitivity = lookSpeed * 50` (onMouseMove, line 106). -/
def sensitivity : ℝ := lookSpeed * 50

/-- Bounds as constructed in the source (a 15×15 room, eye level 1 to 8). -/
def defaultBounds : Bounds := ⟨-7, 7, -7, 7, 1, 8⟩

/-- Componentwise vector sum (`Vector3.add`). -/
def add3 (v w : Vec3) : Vec3 := ⟨v.x + w.x, v.y + w.y, v.z + w.z⟩

/-- Componentwise vector difference (`Vector3.sub`). -/
def sub3 (v w : Vec3) : Vec3 := ⟨v.x - w.x, v.y - w.y, v.z - w.z⟩

/-- Scalar multiple (`Vector3.multiplyScalar`). -/
def smul3 (a : ℝ) (v : Vec3) : Vec3 := ⟨a * v.x, a * v.y, a * v.z⟩

/-- Euclidean length (`Vector3.length`). -/
def lengthV (v : Vec3) : ℝ := Real.sqrt (v.x ^ 2 + v.y ^ 2 + v.z ^ 2)

/-- `Vector3.normalize` divides by `length || 1`, so the zero vector is
returned unchanged. -/
def normalize3 (v : Vec3) : Vec3 :=
  if lengthV v = 0 then v else smul3 (1 / lengthV v) v

/-- Rotation about the x axis by `p` (the pitch component of the camera
quaternion). -/
def rotX (p : ℝ) (v : Vec3) : Vec3 :=
  ⟨v.x, Real.cos p * v.y - Real.sin p * v.z, Real.sin p * v.y + Real.cos p * v.z⟩

/-- Rotation about the y axis by `t` (the yaw component of the camera
quaternion). -/
def rotY (t : ℝ) (v : Vec3) : Vec3 :=
  ⟨Real.cos t * v.x + Real.sin t * v.z, v.y, -Real.sin t * v.x + Real.cos t * v.z⟩

/-- The camera quaternion applied to a vector: the rotation set by
`onMouseMove` with Euler order `"YXZ"` and zero roll, i.e. yaw about Y
after pitch about X. -/
def cameraRotate (yaw pitch : ℝ) (v : Vec3) : Vec3 := rotY yaw (rotX pitch v)

/-- Drop the vertical component (`forward.y = 0` / `right.y = 0`). -/
def zeroY (v : Vec3) : Vec3 := ⟨v.x, 0, v.z⟩

/-- The movement-basis forward vector of `update` (lines 125-136):
`(0,0,-1)` rotated by the camera quaternion, vertical component zeroed,
then renormalized. -/
def forwardVec (yaw pitch : ℝ) : Vec3 :=
  normalize3 (zeroY (cameraRotate yaw pitch ⟨0, 0, -1⟩))

/-- The movement-basis right vector of `update` (lines 125-136). -/
def rightVec (yaw pitch : ℝ) : Vec3 :=
  normalize3 (zeroY (cameraRotate yaw pitch ⟨1, 0, 0⟩))

/-- The acceleration built from the held keys (lines 139-160), before the
`moveSpeed` scaling. -/
def keyIntent (s : CameraState) : Vec3 :=
  let fwd := forwardVec s.yaw s.pitch
  let rgt := rightVec s.yaw s.pitch
  let a0 : Vec3 := ⟨0, 0, 0⟩
  let a1 := if s.keys "KeyW" then add3 a0 fwd else a0
  let a2 := if s.keys "KeyS" then sub3 a1 fwd else a1
  let a3 := if s.keys "KeyA" then sub3 a2 rgt else a2
  let a4 := if s.keys "KeyD" then add3 a3 rgt else a3
  let a5 := if s.keys "Space" then { a4 with y := a4.y + 1 } else a4
  if s.keys "ShiftLeft" then { a5 with y := a5.y - 1 } else a5

/-- The velocity at the end of a tick (lines 162-173): add the scaled
acceleration, cap the magnitude at `maxVelocity`, then apply friction. -/
def velocityAfter (s : CameraState) : Vec3 :=
  let v1 := add3 s.velocity (smul3 moveSpeed (keyIntent s))
  let v2 := if maxVelocity < lengthV v1 then smul3 maxVelocity (normalize3 v1) else v1
  smul3 friction v2

/-- One axis of the bounds check: `Math.max(lo, Math.min(hi, t))`. -/
def clampAx (lo hi t : ℝ) : ℝ := max lo (min hi t)

/-- The per-axis position clamp of lines 179-190; it reads only the
tentative position, never the velocity. -/
def clampVec (b : Bounds) (p : Vec3) : Vec3 :=
  ⟨clampAx b.minX b.maxX p.x, clampAx b.minY b.maxY p.y, clampAx b.minZ b.maxZ p.z⟩

/-- Source `update()`: a no-op unless the pointer is locked; otherwise
integrate the velocity and clamp the tentative position into the bounds. -/
def update (s : CameraState) : CameraState :=
  if s.isPointerLocked then
    let v := velocityAfter s
    { s with velocity := v, position := clampVec s.bounds (add3 s.position v) }
  else s

/-- Source `onMouseMove`: ignored unless the pointer is locked; otherwise
`yaw -= dx·sensitivity` unclamped and `pitch -= dy·sensitivity` clamped
into `[-π/2, π/2]` (lines 99-118). -/
def onMouseMove (dx dy : ℝ) (s : CameraState) : CameraState :=
  if s.isPointerLocked then
    { s with
      yaw := s.yaw - dx * sensitivity
      pitch := max (-(Real.pi / 2)) (min (Real.pi / 2) (s.pitch - dy * sensitivity)) }
  else s

/-- Source `onKeyDown`: records the key as held regardless of the capture
state. -/
def onKeyDown (code : String) (s : CameraState) : CameraState :=
  { s with keys := fun k => if k = code then true else s.keys k }

/-- Source `onKeyUp`: records the key as released regardless of the
capture state. -/
def onKeyUp (code : String) (s : CameraState) : CameraState :=
  { s with keys := fun k => if k = code then false else s.keys k }

/-- Source `dispose()` (lines 207-219): after deregistering every
listener it calls `document.exitPointerLock()` exactly when the pointer
is currently locked, which forces the host's capture state to Released;
when already released nothing happens.  The boolean records whether the
exit call was made. -/
def dispose (s : CameraState) : CameraState × Bool :=
  if s.isPointerLocked then ({ s with isPointerLocked := false }, true) else (s, false)

/-- The position is inside the bounds on every axis. -/
def inBounds (b : Bounds) (p : Vec3) : Prop :=
  b.minX ≤ p.x ∧ p.x ≤ b.maxX ∧ b.minY ≤ p.y ∧ p.y ≤ b.maxY ∧
    b.minZ ≤ p.z ∧ p.z ≤ b.maxZ

/-- No movement key is held (the six codes `update` reads). -/
def noKeysHeld (s : CameraState) : Prop :=
  s.keys "KeyW" = false ∧ s.keys "KeyS" = false ∧ s.keys "KeyA" = false ∧
    s.keys "KeyD" = false ∧ s.keys "Space" = false ∧ s.keys "ShiftLeft" = false

end

/-- The camera controller's state at startup (Camera.ts places the eye at
(0, 2, 0) with level gaze), here with the pointer captured so that ticks
are live; used to instantiate the controller theorems. -/
noncomputable def camInit : CameraState :=
  ⟨fun _ => false, 0, 0, ⟨0, 2, 0⟩, ⟨0, 0, 0⟩, true, defaultBounds⟩

/-! ### Lemmas about the wall-layout loop -/

theorem findPosition_sound (isSide : Bool) (c : SizeConfig) (placed : List PlacedTV)
    (l : List (ℚ × ℚ)) (p : ℚ × ℚ) (h : findPosition isSide c placed l = some p) :
    canPlace c p.1 p.2 placed = true := by
  induction l with
  | nil => simp [findPosition] at h
  | cons uv rest ih =>
    simp only [findPosition] at h
    split at h
    · cases h
      assumption
    · exact ih h

theorem canPlace_sat (c : SizeConfig) (x y : ℚ) (placed : List PlacedTV)
    (h : canPlace c x y placed = true) :
    ∀ p ∈ placed, sat p ⟨x, y, c.width, c.height⟩ := by
  intro p hp
  have hq := List.all_eq_true.mp h p hp
  simp only [overlapsB, Bool.not_eq_eq_eq_not, Bool.not_true, Bool.and_eq_false_imp,
    decide_eq_true_eq, decide_eq_false_iff_not, not_lt] at hq
  by_cases hx : |x - p.x| < (c.width + p.width) / 2
  · right
    have := hq hx
    rw [abs_sub_comm, add_comm]
    simpa using this
  · left
    rw [abs_sub_comm, add_comm]
    simpa using not_lt.mp hx

theorem attemptStep_pairwise (isSide : Bool) (c : SizeConfig) (draws : List (ℚ × ℚ))
    (placed : List PlacedTV) (h : placed.Pairwise sat) :
    (attemptStep isSide c draws placed).Pairwise sat := by
  unfold attemptStep
  cases hf : findPosition isSide c placed draws with
  | none => exact h
  | some p =>
    rw [List.pairwise_append]
    refine ⟨h, by simp, ?_⟩
    intro a ha b hb
    rw [List.mem_singleton] at hb
    subst hb
    exact canPlace_sat c p.1 p.2 placed (findPosition_sound _ _ _ _ _ hf) a ha

theorem attemptStep_length (isSide : Bool) (c : SizeConfig) (draws : List (ℚ × ℚ))
    (placed : List PlacedTV) :
    (attemptStep isSide c draws placed).length ≤ placed.length + 1 := by
  unfold attemptStep
  cases findPosition isSide c placed draws with
  | none => exact Nat.le_succ _
  | some p => simp

theorem layoutRun_pairwise (isSide : Bool) (σ : ℕ → SizeClass) (rnd : ℕ → ℕ → ℚ × ℚ) :
    ∀ (fuel attempts : ℕ) (placed : List PlacedTV), placed.Pairwise sat →
      ((layoutRun isSide σ rnd fuel attempts placed).2).Pairwise sat
  | 0, _, _, h => h
  | fuel + 1, attempts, placed, h => by
    rw [layoutRun]
    split
    · exact layoutRun_pairwise isSide σ rnd fuel _ _ (attemptStep_pairwise _ _ _ _ h)
    · exact h

theorem layoutRun_attempts_le (isSide : Bool) (σ : ℕ → SizeClass) (rnd : ℕ → ℕ → ℚ × ℚ) :
    ∀ (fuel attempts : ℕ) (placed : List PlacedTV),
      (layoutRun isSide σ rnd fuel attempts placed).1 ≤ attempts + fuel
  | 0, attempts, placed => Nat.le_refl _
  | fuel + 1, attempts, placed => by
    rw [layoutRun]
    split
    · have := layoutRun_attempts_le isSide σ rnd fuel (attempts + 1)
        (attemptStep isSide (sizeConfigs (σ attempts)) (attemptDraws rnd attempts) placed)
      omega
    · omega

theorem layoutRun_length_le (isSide : Bool) (σ : ℕ → SizeClass) (rnd : ℕ → ℕ → ℚ × ℚ) :
    ∀ (fuel attempts : ℕ) (placed : List PlacedTV), placed.length ≤ maxTVsPerWall →
      (layoutRun isSide σ rnd fuel attempts placed).2.length ≤ maxTVsPerWall
  | 0, _, _, h => h
  | fuel + 1, attempts, placed, h => by
    rw [layoutRun]
    split
    · refine layoutRun_length_le isSide σ rnd fuel (attempts + 1) _ ?_
      have hs := attemptStep_length isSide (sizeConfigs (σ attempts))
        (attemptDraws rnd attempts) placed
      next hlt => omega
    · exact h

theorem wallPlacements_length_le (σ : ℕ → ℕ → SizeClass) (rnd : ℕ → ℕ → ℕ → ℚ × ℚ)
    (w : ℕ) : (wallPlacements σ rnd w).length ≤ maxTVsPerWall :=
  layoutRun_length_le _ _ _ _ _ _ (by simp [maxTVsPerWall])

/-! ### Claim theorems for the wall-layout engine -/

/-- C1: every completed wall layout is pairwise non-overlapping in the
separating-axis sense, whatever the injected random draws; and with an
existing 1.0×0.8 footprint at (0,0) a 1.0×0.8 candidate at (0.9, 0) is
rejected while one at (1.1, 0) is accepted. -/
theorem wall_layout_no_overlap :
    (∀ (σ : ℕ → ℕ → SizeClass) (rnd : ℕ → ℕ → ℕ → ℚ × ℚ) (w : ℕ),
      (wallPlacements σ rnd w).Pairwise sat) ∧
    canPlace (sizeConfigs .medium) 0.9 0 [⟨0, 0, 1, 0.8⟩] = false ∧
    canPlace (sizeConfigs .medium) 1.1 0 [⟨0, 0, 1, 0.8⟩] = true := by
  refine ⟨?_, ?_, ?_⟩
  · intro σ rnd w
    exact layoutRun_pairwise _ _ _ _ _ _ List.Pairwise.nil
  · simp [canPlace, overlapsB, sizeConfigs]
    norm_num [abs_lt]
  · simp [canPlace, overlapsB, sizeConfigs]
    norm_num [le_abs]

/-- C2, counterexample: a 16×9 candidate exceeds both the 15-unit wall
width and the 8-unit wall height, yet with no existing footprints the
placer returns an anchor on the very first try instead of exhausting its
budget and signalling NoFit: the accept test never consults the wall
extent. -/
theorem oversize_candidate_accepted :
    roomSize < 16 ∧ wallHeight < 9 ∧
    attemptDraws (fun _ _ => ((1 : ℚ)/2, (1 : ℚ)/2)) 0 = List.replicate 50 (1/2, 1/2) ∧
    findPosition false ⟨16, 9⟩ [] (List.replicate 50 (1/2, 1/2)) = some (0, 4) := by
  refine ⟨by norm_num [roomSize], by norm_num [wallHeight], ?_, ?_⟩
  · simp [attemptDraws]
  · rw [show List.replicate 50 ((1 : ℚ)/2, (1 : ℚ)/2) =
      (1/2, 1/2) :: List.replicate 49 (1/2, 1/2) from rfl]
    simp [findPosition, canPlace, sampleXY, roomSize, wallHeight]
    norm_num

/-- C2, amended: the placer performs no wall-extent check — acceptance
depends only on overlap against existing footprints, so with zero
existing footprints any candidate, a too-large one included, is accepted
on the first try with the first sampled anchor. -/
theorem placer_no_extent_check :
    ∀ (isSide : Bool) (c : SizeConfig) (uv : ℚ × ℚ) (rest : List (ℚ × ℚ)),
      findPosition isSide c [] (uv :: rest) = some (sampleXY isSide c uv.1 uv.2) := by
  intro isSide c uv rest
  simp [findPosition, canPlace]

/-- C7: the per-wall loop's final attempt counter never exceeds 100, the
placements on one wall never exceed 10, every iteration advances the
attempt counter by exactly one whether or not the attempt places a TV,
and the whole four-wall layout records at most 40 exhibits. -/
theorem layout_budget :
    (∀ (isSide : Bool) (σ : ℕ → SizeClass) (rnd : ℕ → ℕ → ℚ × ℚ),
      (layoutRun isSide σ rnd maxAttemptsPerWall 0 []).1 ≤ 100 ∧
      (layoutRun isSide σ rnd maxAttemptsPerWall 0 []).2.length ≤ 10 ∧
      ∀ (fuel attempts : ℕ) (placed : List PlacedTV), placed.length < maxTVsPerWall →
        layoutRun isSide σ rnd (fuel + 1) attempts placed =
          layoutRun isSide σ rnd fuel (attempts + 1)
            (attemptStep isSide (sizeConfigs (σ attempts)) (attemptDraws rnd attempts)
              placed)) ∧
    ∀ (σ : ℕ → ℕ → SizeClass) (rnd : ℕ → ℕ → ℕ → ℚ × ℚ),
      (buildLayout σ rnd).length ≤ 40 := by
  constructor
  · intro isSide σ rnd
    refine ⟨layoutRun_attempts_le _ _ _ _ _ _, layoutRun_length_le _ _ _ _ _ _ (by simp), ?_⟩
    intro fuel attempts placed hlt
    rw [layoutRun, if_pos hlt]
  · intro σ rnd
    have h0 := wallPlacements_length_le σ rnd 0
    have h1 := wallPlacements_length_le σ rnd 1
    have h2 := wallPlacements_length_le σ rnd 2
    have h3 := wallPlacements_length_le σ rnd 3
    have : buildLayout σ rnd =
        wallPlacements σ rnd 0 ++ (wallPlacements σ rnd 1 ++
          (wallPlacements σ rnd 2 ++ (wallPlacements σ rnd 3 ++ []))) := rfl
    rw [this]
    simp only [List.length_append, List.length_nil, maxTVsPerWall] at *
    omega

/-- C10: every size class is strictly wider than tall; on side walls the
sampler draws the anchor's x from the wall-height extent with the height
clearance and y from the room-width extent with the width clearance; yet
the accept test keeps comparing x against widths and y against heights,
so a pair of reachable side-wall placements exists that the code accepts
(and that satisfies the spec's anchor-level formula) while the physical
wall rectangles — width along the wall, height vertical — overlap. -/
theorem side_wall_axis_swap :
    ((sizeConfigs .small).height < (sizeConfigs .small).width ∧
      (sizeConfigs .medium).height < (sizeConfigs .medium).width ∧
      (sizeConfigs .large).height < (sizeConfigs .large).width) ∧
    (∀ (c : SizeConfig) (u v : ℚ),
      sampleXY true c u v =
        (u * (wallHeight - c.height) + c.height / 2,
          (v - 1/2) * (roomSize - c.width))) ∧
    sampleXY true (sizeConfigs .medium) (2/9) (1/2) = (2, 0) ∧
    sampleXY true (sizeConfigs .medium) (2/9) (79/140) = (2, 9/10) ∧
    canPlace (sizeConfigs .medium) 2 (9/10) [⟨2, 0, 1, 0.8⟩] = true ∧
    sat ⟨2, 0, 1, 0.8⟩ ⟨2, 9/10, 1, 0.8⟩ ∧
    physOverlapSide ⟨2, 0, 1, 0.8⟩ ⟨2, 9/10, 1, 0.8⟩ = true := by
  refine ⟨by norm_num [sizeConfigs], ?_, ?_, ?_, ?_, ?_, ?_⟩
  · intro c u v
    simp [sampleXY]
  · simp [sampleXY, sizeConfigs, roomSize, wallHeight]
    norm_num
  · simp [sampleXY, sizeConfigs, roomSize, wallHeight]
    norm_num
  · simp [canPlace, overlapsB, sizeConfigs]
    norm_num [le_abs]
  · right
    norm_num [le_abs]
  · simp [physOverlapSide]
    norm_num [abs_lt]

/-! ### Lemmas about the navigation controller -/

theorem lengthV_nonneg (v : Vec3) : 0 ≤ lengthV v := Real.sqrt_nonneg _

theorem lengthV_smul3 (a : ℝ) (v : Vec3) : lengthV (smul3 a v) = |a| * lengthV v := by
  unfold lengthV smul3
  rw [show (a * v.x) ^ 2 + (a * v.y) ^ 2 + (a * v.z) ^ 2 =
      a ^ 2 * (v.x ^ 2 + v.y ^ 2 + v.z ^ 2) by ring]
  rw [Real.sqrt_mul (sq_nonneg a), Real.sqrt_sq_eq_abs]

theorem normalize3_length (v : Vec3) (h : lengthV v ≠ 0) :
    lengthV (normalize3 v) = 1 := by
  have hpos : 0 < lengthV v := lt_of_le_of_ne (lengthV_nonneg v) (Ne.symm h)
  rw [normalize3, if_neg h, lengthV_smul3, abs_of_pos (by positivity)]
  field_simp

theorem normalize3_y (v : Vec3) (hy : v.y = 0) : (normalize3 v).y = 0 := by
  unfold normalize3
  split
  · exact hy
  · simp [smul3, hy]

theorem update_keys (s : CameraState) : (update s).keys = s.keys := by
  unfold update
  split <;> rfl

theorem update_locked (s : CameraState) :
    (update s).isPointerLocked = s.isPointerLocked := by
  unfold update
  split <;> rfl

theorem update_velocity_eq (s : CameraState) (h : s.isPointerLocked = true) :
    (update s).velocity = velocityAfter s := by
  rw [update, if_pos h]

theorem keyIntent_zero (s : CameraState) (h : noKeysHeld s) : keyIntent s = ⟨0, 0, 0⟩ := by
  obtain ⟨h1, h2, h3, h4, h5, h6⟩ := h
  unfold keyIntent
  simp [h1, h2, h3, h4, h5, h6]

theorem velocityAfter_noKeys (s : CameraState) (h : noKeysHeld s)
    (hv : lengthV s.velocity ≤ maxVelocity) :
    velocityAfter s = smul3 friction s.velocity := by
  have hz : add3 s.velocity (smul3 moveSpeed (keyIntent s)) = s.velocity := by
    rw [keyIntent_zero s h]
    simp [add3, smul3]
  unfold velocityAfter
  simp only [hz]
  rw [if_neg (not_lt.mpr hv)]

theorem clampAx_bounds (lo hi t : ℝ) (h : lo ≤ hi) :
    lo ≤ clampAx lo hi t ∧ clampAx lo hi t ≤ hi :=
  ⟨le_max_left _ _, max_le h (min_le_left _ _)⟩

/-! ### Claim theorems for the navigation controller -/

/-- C3: while captured and with coherent bounds, a tick leaves the
resulting position inside the bounds on every axis, and the per-axis
clamping step changes only the position: the velocity `update` stores is
exactly the pre-clamp velocity of the physics pipeline, on every axis. -/
theorem tick_bounds_invariant (s : CameraState)
    (hL : s.isPointerLocked = true)
    (hx : s.bounds.minX ≤ s.bounds.maxX)
    (hy : s.bounds.minY ≤ s.bounds.maxY)
    (hz : s.bounds.minZ ≤ s.bounds.maxZ) :
    inBounds s.bounds (update s).position ∧ (update s).velocity = velocityAfter s := by
  constructor
  · rw [update, if_pos hL]
    simp only [inBounds, clampVec]
    exact ⟨(clampAx_bounds _ _ _ hx).1, (clampAx_bounds _ _ _ hx).2,
      (clampAx_bounds _ _ _ hy).1, (clampAx_bounds _ _ _ hy).2,
      (clampAx_bounds _ _ _ hz).1, (clampAx_bounds _ _ _ hz).2⟩
  · exact update_velocity_eq s hL

theorem tick_bounds_invariant_check :
    camInit.isPointerLocked = true ∧
    camInit.bounds.minX ≤ camInit.bounds.maxX ∧
    camInit.bounds.minY ≤ camInit.bounds.maxY ∧
    camInit.bounds.minZ ≤ camInit.bounds.maxZ ∧
    inBounds camInit.bounds (update camInit).position ∧
    (update camInit).velocity = velocityAfter camInit := by
  have hx : camInit.bounds.minX ≤ camInit.bounds.maxX := by norm_num [camInit, defaultBounds]
  have hy : camInit.bounds.minY ≤ camInit.bounds.maxY := by norm_num [camInit, defaultBounds]
  have hz : camInit.bounds.minZ ≤ camInit.bounds.maxZ := by norm_num [camInit, defaultBounds]
  have h := tick_bounds_invariant camInit rfl hx hy hz
  exact ⟨rfl, hx, hy, hz, h.1, h.2⟩

/-- C6: while released, a tick leaves the entire navigation state
unchanged and pointer-motion events are ignored; key press/release
events update the held-key set regardless of the capture state. -/
theorem released_noop (s : CameraState) (dx dy : ℝ)
    (hL : s.isPointerLocked = false) :
    update s = s ∧ onMouseMove dx dy s = s ∧
    ∀ (s2 : CameraState) (code : String),
      (onKeyDown code s2).keys code = true ∧ (onKeyUp code s2).keys code = false := by
  refine ⟨?_, ?_, ?_⟩
  · rw [update, if_neg (by simp [hL])]
  · rw [onMouseMove, if_neg (by simp [hL])]
  · intro s2 code
    constructor
    · simp [onKeyDown]
    · simp [onKeyUp]

theorem released_noop_check :
    ({ camInit with isPointerLocked := false } : CameraState).isPointerLocked = false ∧
    update { camInit with isPointerLocked := false } =
      { camInit with isPointerLocked := false } :=
  ⟨rfl, (released_noop { camInit with isPointerLocked := false } 0 0 rfl).1⟩

/-- C8: `dispose` makes the exit-pointer-lock call exactly when the state
is captured at disposal, the capture state afterwards is always released,
and disposing while already released is a no-op that returns the state
unchanged with no exit call. -/
theorem dispose_release (s : CameraState) :
    (dispose s).2 = s.isPointerLocked ∧
    (dispose s).1.isPointerLocked = false ∧
    (s.isPointerLocked = false → dispose s = (s, false)) := by
  cases hb : s.isPointerLocked <;> simp [dispose, hb]

theorem dispose_release_check :
    ({ camInit with isPointerLocked := false } : CameraState).isPointerLocked = false ∧
    dispose { camInit with isPointerLocked := false } =
      ({ camInit with isPointerLocked := false }, false) :=
  ⟨rfl, (dispose_release { camInit with isPointerLocked := false }).2.2 rfl⟩

theorem onMouseMove_locked (dx dy : ℝ) (s : CameraState) :
    (onMouseMove dx dy s).isPointerLocked = s.isPointerLocked := by
  unfold onMouseMove
  split <;> rfl

theorem onMouseMove_pitch (dx dy : ℝ) (s : CameraState) (hL : s.isPointerLocked = true) :
    (onMouseMove dx dy s).pitch =
      max (-(Real.pi / 2)) (min (Real.pi / 2) (s.pitch - dy * sensitivity)) := by
  rw [onMouseMove, if_pos hL]

/-- C4: while captured, every pointer-motion event leaves the pitch in
[-π/2, π/2], the pitch update is the clamped `pitch - dy·sensitivity`,
the yaw update is the unclamped `yaw - dx·sensitivity`; and a delta
sequence whose pitch-driving input sums to -2π clamps the pitch at -π/2
instead of wrapping. -/
theorem pitch_clamp (s : CameraState) (dx dy : ℝ) (hL : s.isPointerLocked = true) :
    (-(Real.pi / 2) ≤ (onMouseMove dx dy s).pitch ∧
      (onMouseMove dx dy s).pitch ≤ Real.pi / 2) ∧
    (onMouseMove dx dy s).pitch =
      max (-(Real.pi / 2)) (min (Real.pi / 2) (s.pitch - dy * sensitivity)) ∧
    (onMouseMove dx dy s).yaw = s.yaw - dx * sensitivity ∧
    100 * Real.pi * sensitivity + 100 * Real.pi * sensitivity = 2 * Real.pi ∧
    (onMouseMove 0 (100 * Real.pi) (onMouseMove 0 (100 * Real.pi) camInit)).pitch =
      -(Real.pi / 2) := by
  have hpi := Real.pi_pos
  refine ⟨?_, onMouseMove_pitch dx dy s hL, ?_, ?_, ?_⟩
  · rw [onMouseMove_pitch dx dy s hL]
    exact ⟨le_max_left _ _, max_le (by linarith) (min_le_left _ _)⟩
  · rw [onMouseMove, if_pos hL]
  · rw [sensitivity, lookSpeed]
    ring_nf
  · have hsens : (100 : ℝ) * Real.pi * sensitivity = Real.pi := by
      rw [sensitivity, lookSpeed]
      ring_nf
    have h1 : (onMouseMove 0 (100 * Real.pi) camInit).pitch = -(Real.pi / 2) := by
      rw [onMouseMove_pitch _ _ _ rfl]
      have hp0 : camInit.pitch = 0 := rfl
      rw [hp0, hsens, zero_sub, min_eq_right (by linarith), max_eq_left (by linarith)]
    rw [onMouseMove_pitch _ _ _ (by rw [onMouseMove_locked]; rfl)]
    rw [h1, hsens, min_eq_right (by linarith), max_eq_left (by linarith)]

theorem pitch_clamp_check :
    camInit.isPointerLocked = true ∧
    -(Real.pi / 2) ≤ (onMouseMove 1 1 camInit).pitch ∧
    (onMouseMove 1 1 camInit).pitch ≤ Real.pi / 2 :=
  ⟨rfl, (pitch_clamp camInit 1 1 rfl).1.1, (pitch_clamp camInit 1 1 rfl).1.2⟩

theorem iterate_keys (s : CameraState) : ∀ n : ℕ, (update^[n] s).keys = s.keys := by
  intro n
  induction n with
  | zero => rfl
  | succ n ih => rw [Function.iterate_succ_apply', update_keys, ih]

theorem iterate_locked (s : CameraState) :
    ∀ n : ℕ, (update^[n] s).isPointerLocked = s.isPointerLocked := by
  intro n
  induction n with
  | zero => rfl
  | succ n ih => rw [Function.iterate_succ_apply', update_locked, ih]

theorem iterate_velocity (s : CameraState) (hL : s.isPointerLocked = true)
    (hk : noKeysHeld s) (hv : lengthV s.velocity ≤ maxVelocity) :
    ∀ n : ℕ, lengthV ((update^[n] s).velocity) = friction ^ n * lengthV s.velocity := by
  intro n
  induction n with
  | zero => simp
  | succ n ih =>
    have htk : noKeysHeld (update^[n] s) := by
      unfold noKeysHeld
      rw [iterate_keys]
      exact hk
    have htL : (update^[n] s).isPointerLocked = true := by rw [iterate_locked]; exact hL
    have hpow : friction ^ n ≤ 1 := pow_le_one₀ (by norm_num [friction]) (by norm_num [friction])
    have htv : lengthV (update^[n] s).velocity ≤ maxVelocity := by
      rw [ih]
      calc friction ^ n * lengthV s.velocity ≤ 1 * lengthV s.velocity :=
            mul_le_mul_of_nonneg_right hpow (lengthV_nonneg _)
        _ = lengthV s.velocity := one_mul _
        _ ≤ maxVelocity := hv
    rw [Function.iterate_succ_apply', update_velocity_eq _ htL,
      velocityAfter_noKeys _ htk htv, lengthV_smul3, ih,
      abs_of_pos (by norm_num [friction] : (0:ℝ) < friction)]
    ring

/-- C5: while captured with no movement keys held (and the velocity
within the speed cap, as every reachable tick keeps it), a tick
multiplies the velocity by the friction factor 0.95, so its magnitude
strictly decreases whenever nonzero; over 20 such ticks a magnitude
starting at most 0.08 decays to at most 0.08·0.95^20. -/
theorem friction_decay (s : CameraState) (hL : s.isPointerLocked = true)
    (hk : noKeysHeld s) (hv : lengthV s.velocity ≤ maxVelocity) :
    (update s).velocity = smul3 friction s.velocity ∧
    (lengthV s.velocity ≠ 0 →
      lengthV (update s).velocity < lengthV s.velocity) ∧
    lengthV ((update^[20] s).velocity) ≤ 0.08 * 0.95 ^ 20 := by
  have hupd : (update s).velocity = smul3 friction s.velocity := by
    rw [update_velocity_eq s hL, velocityAfter_noKeys s hk hv]
  refine ⟨hupd, ?_, ?_⟩
  · intro hne
    have hpos : 0 < lengthV s.velocity := lt_of_le_of_ne (lengthV_nonneg _) (Ne.symm hne)
    rw [hupd, lengthV_smul3, abs_of_pos (by norm_num [friction] : (0:ℝ) < friction)]
    unfold friction
    nlinarith [hpos]
  · have h20 := iterate_velocity s hL hk hv 20
    rw [h20]
    have hle : friction ^ 20 * lengthV s.velocity ≤ friction ^ 20 * maxVelocity :=
      mul_le_mul_of_nonneg_left hv (by positivity)
    calc friction ^ 20 * lengthV s.velocity ≤ friction ^ 20 * maxVelocity := hle
      _ = 0.08 * 0.95 ^ 20 := by rw [friction, maxVelocity]; ring

theorem friction_decay_check :
    ({ camInit with velocity := ⟨0.08, 0, 0⟩ } : CameraState).isPointerLocked = true ∧
    noKeysHeld ({ camInit with velocity := ⟨0.08, 0, 0⟩ } : CameraState) ∧
    lengthV ({ camInit with velocity := ⟨0.08, 0, 0⟩ } : CameraState).velocity ≤ maxVelocity ∧
    lengthV ({ camInit with velocity := ⟨0.08, 0, 0⟩ } : CameraState).velocity ≠ 0 ∧
    lengthV (update { camInit with velocity := ⟨0.08, 0, 0⟩ }).velocity <
      lengthV ({ camInit with velocity := ⟨0.08, 0, 0⟩ } : CameraState).velocity ∧
    lengthV ((update^[20] { camInit with velocity := ⟨0.08, 0, 0⟩ }).velocity) ≤
      0.08 * 0.95 ^ 20 := by
  have hlen : lengthV ({ camInit with velocity := ⟨0.08, 0, 0⟩ } : CameraState).velocity
      = 0.08 := by
    show Real.sqrt ((0.08:ℝ) ^ 2 + 0 ^ 2 + 0 ^ 2) = 0.08
    rw [show (0.08:ℝ) ^ 2 + 0 ^ 2 + 0 ^ 2 = 0.08 ^ 2 by ring, Real.sqrt_sq (by norm_num)]
  have hk : noKeysHeld ({ camInit with velocity := ⟨0.08, 0, 0⟩ } : CameraState) := by
    simp [noKeysHeld, camInit]
  have hv : lengthV ({ camInit with velocity := ⟨0.08, 0, 0⟩ } : CameraState).velocity
      ≤ maxVelocity := by rw [hlen, maxVelocity]
  have hne : lengthV ({ camInit with velocity := ⟨0.08, 0, 0⟩ } : CameraState).velocity
      ≠ 0 := by rw [hlen]; norm_num
  have h := friction_decay { camInit with velocity := ⟨0.08, 0, 0⟩ } rfl hk hv
  exact ⟨rfl, hk, hv, hne, h.2.1 hne, h.2.2⟩

theorem fwd_raw_length (yaw pitch : ℝ) :
    lengthV (zeroY (cameraRotate yaw pitch ⟨0, 0, -1⟩)) = |Real.cos pitch| := by
  have h : lengthV (zeroY (cameraRotate yaw pitch ⟨0, 0, -1⟩)) =
      Real.sqrt (Real.cos pitch ^ 2) := by
    unfold lengthV zeroY cameraRotate rotX rotY
    dsimp only
    congr 1
    linear_combination Real.cos pitch ^ 2 * Real.sin_sq_add_cos_sq yaw
  rw [h, Real.sqrt_sq_eq_abs]

theorem right_raw_length (yaw pitch : ℝ) :
    lengthV (zeroY (cameraRotate yaw pitch ⟨1, 0, 0⟩)) = 1 := by
  have h : lengthV (zeroY (cameraRotate yaw pitch ⟨1, 0, 0⟩)) = Real.sqrt 1 := by
    unfold lengthV zeroY cameraRotate rotX rotY
    dsimp only
    congr 1
    linear_combination Real.sin_sq_add_cos_sq yaw
  rw [h, Real.sqrt_one]

/-- C9, counterexample: pitch = π/2 lies in the reachable range [-π/2, π/2]
(it is exactly where the clamp saturates), yet there the projected forward
vector degenerates: zeroing the vertical component of the rotated forward
leaves the zero vector, renormalization keeps it zero, and its length is
0, not 1. -/
theorem forward_degenerate :
    lengthV (forwardVec 0 (Real.pi / 2)) = 0 ∧
    lengthV (forwardVec 0 (Real.pi / 2)) ≠ 1 := by
  have h0 : zeroY (cameraRotate 0 (Real.pi / 2) ⟨0, 0, -1⟩) = ⟨0, 0, 0⟩ := by
    simp [cameraRotate, rotX, rotY, zeroY, Real.cos_pi_div_two, Real.sin_pi_div_two]
  have hlen : lengthV (⟨0, 0, 0⟩ : Vec3) = 0 := by
    simp [lengthV]
  have hfwd : lengthV (forwardVec 0 (Real.pi / 2)) = 0 := by
    rw [forwardVec, h0, normalize3, if_pos hlen]
    exact hlen
  exact ⟨hfwd, by rw [hfwd]; norm_num⟩

/-- C9, amended: for every yaw and every pitch strictly inside
(-π/2, π/2), the movement basis of `update` consists of a forward vector
and a right vector that each have zero vertical component and unit length
after the zero-then-renormalize projection (only at the saturated
boundary pitches ±π/2 does the forward vector instead degenerate to
zero). -/
theorem movement_basis_unit (yaw pitch : ℝ)
    (h1 : -(Real.pi / 2) < pitch) (h2 : pitch < Real.pi / 2) :
    (forwardVec yaw pitch).y = 0 ∧ lengthV (forwardVec yaw pitch) = 1 ∧
    (rightVec yaw pitch).y = 0 ∧ lengthV (rightVec yaw pitch) = 1 := by
  have hcos : 0 < Real.cos pitch := Real.cos_pos_of_mem_Ioo ⟨h1, h2⟩
  have hfl : lengthV (zeroY (cameraRotate yaw pitch ⟨0, 0, -1⟩)) = Real.cos pitch := by
    rw [fwd_raw_length, abs_of_pos hcos]
  have hrl : lengthV (zeroY (cameraRotate yaw pitch ⟨1, 0, 0⟩)) = 1 :=
    right_raw_length yaw pitch
  refine ⟨?_, ?_, ?_, ?_⟩
  · rw [forwardVec]
    exact normalize3_y _ rfl
  · rw [forwardVec]
    exact normalize3_length _ (by rw [hfl]; exact ne_of_gt hcos)
  · rw [rightVec]
    exact normalize3_y _ rfl
  · rw [rightVec]
    exact normalize3_length _ (by rw [hrl]; norm_num)

theorem movement_basis_unit_check :
    -(Real.pi / 2) < 0 ∧ (0:ℝ) < Real.pi / 2 ∧
    lengthV (forwardVec 0 0) = 1 ∧ lengthV (rightVec 0 0) = 1 := by
  have hpi := Real.pi_pos
  have h := movement_basis_unit 0 0 (by linarith) (by linarith)
  exact ⟨by linarith, by linarith, h.2.1, h.2.2.2⟩

theorem layout_budget_witness :
    ([] : List PlacedTV).length < maxTVsPerWall ∧
    layoutRun false (fun _ => SizeClass.medium) (fun _ _ => (0, 0)) 1 0 [] =
      layoutRun false (fun _ => SizeClass.medium) (fun _ _ => (0, 0)) 0 1
        (attemptStep false (sizeConfigs SizeClass.medium)
          (attemptDraws (fun _ _ => (0, 0)) 0) []) :=
  ⟨by norm_num [maxTVsPerWall],
    (layout_budget.1 false (fun _ => SizeClass.medium) (fun _ _ => (0, 0))).2.2 0 0 []
      (by norm_num [maxTVsPerWall])⟩
